import Mathlib

/-!
Verification of the Hermes task-pipeline against its specification.

This file gives a shallow embedding, in Lean 4, of the parts of the Hermes
code base that the specification's testable properties talk about:

* the short-term conversation memory (`src/core/memory/short_term.py`),
* the Claude CLI executor (`src/core/agent/executor.py`),
* the task queue (`src/scheduler/task_queue.py`),
* the process health monitor (`src/core/supervisor/health_monitor.py`),
* the understanding agent's keyword fallback
  (`src/core/agent/task_understanding.py`), and
* the pipeline's branching and timeout post-processing (`src/main.py`).

Modelling conventions:

* Python strings are Lean `String`s; `str.lower` is mapped to an ASCII
  `Char.toLower` (CJK characters are unaffected by lowering in both).
* Python `float` confidences are modelled as `ℚ` (the code only compares
  them against the literal thresholds 0.5 and 0.6).
* Wall-clock time is modelled in whole seconds measured from the start of
  the monitored execution; the health monitor's heartbeats happen at exact
  multiples of the heartbeat interval.
* Fallible or stateful Python methods become pure functions from an explicit
  state; subprocesses become a behaviour record (finish time, output-length
  curve, final result).
* Fields of the data classes that no claim mentions (timestamps, file-change
  lists, progress histories) are omitted from the records.
-/

/-! ## String helpers shared by several components -/

/-- Model of Python's `str.lower` (ASCII case folding; the CJK keywords used
by the code are unaffected by case folding in Python as well). -/
def pyLower (s : String) : String :=
  String.mk (s.data.map Char.toLower)

/-- Whether `pat` is a prefix of `l`. -/
def charsPrefixOf : List Char → List Char → Bool
  | [], _ => true
  | _ :: _, [] => false
  | c :: cs, h :: hs => if c = h then charsPrefixOf cs hs else false

/-- Whether `pat` occurs as a contiguous block inside `l`. -/
def charsOccurIn (pat : List Char) : List Char → Bool
  | [] => pat.isEmpty
  | h :: hs => charsPrefixOf pat (h :: hs) || charsOccurIn pat hs

/-- Model of Python's `needle in hay` substring test. -/
def containsSub (hay needle : String) : Bool :=
  charsOccurIn needle.data hay.data

/-- Model of `any(kw in text for kw in kws)`. -/
def anyKeywordIn (text : String) (kws : List String) : Bool :=
  kws.any (fun kw => containsSub text kw)

/-- Model of Python's `s[:n]` character slice. -/
def pyTake (n : ℕ) (s : String) : String :=
  String.mk (s.data.take n)

/-- Model of Python's `s.strip()`: drop leading and trailing whitespace. -/
def pyStrip (s : String) : String :=
  String.mk
    (((s.data.dropWhile Char.isWhitespace).reverse.dropWhile
        Char.isWhitespace).reverse)

/-- Model of Python's `l[-n:]` slice for a non-negative `n`.  For `n = 0`
Python evaluates `l[-0:]`, i.e. `l[0:]`, which is the whole list — this
quirk is load-bearing below. -/
def pyTakeLast (n : ℕ) (l : List α) : List α :=
  if n = 0 then l else l.drop (l.length - n)

/-! ## Task status

Modelled from the spec: the enum `TaskStatus` of `src/core/state/schemas.py`
(the `core/state/` package is absent from the sources; the spec gives
`status ∈ {pending, processing, completed, failed, cancelled}`, and the
queue code uses exactly the first four values plus `cancel` handling). -/

/-- Modelled from the spec: task lifecycle status values. -/
inductive TaskStatus where
  | pending
  | processing
  | completed
  | failed
  | cancelled
deriving DecidableEq, Repr

/-- A status is terminal when it is one of completed, failed, cancelled. -/
def TaskStatus.isTerminal : TaskStatus → Bool
  | .completed => true
  | .failed => true
  | .cancelled => true
  | _ => false

/-! ## Execution results

Modelled from the spec: the `ExecutionResult` dataclass of
`src/core/state/schemas.py` (absent from the sources): `success`, `stdout`,
`stderr`, `exit_code`, `duration_seconds`, `error?`.  The file-change lists
are omitted (no claim mentions them). -/

/-- Modelled from the spec: the executor's result record. -/
structure ExecutionResult where
  success : Bool
  stdout : String
  stderr : String
  exitCode : Int
  duration : ℕ
  error : Option String
deriving DecidableEq, Repr

/-! ## Short-term conversation memory (`src/core/memory/short_term.py`) -/

/-- A conversation message (`ConversationMessage`), keeping the fields the
claims mention. -/
structure ConversationMessage where
  role : String
  content : String
deriving DecidableEq, Repr

/-- The conversation context (`ConversationContext`): the bounded message
list and its capacity `max_messages` (default 100 in the code). -/
structure ConversationContext where
  messages : List ConversationMessage
  maxMessages : ℕ
deriving DecidableEq, Repr

/-- `ConversationContext.add_message` (short_term.py lines 60–81): append the
message, then, when `len(messages) > max_messages + 1`, replace the list by
`[messages[0]] + messages[-max_messages:]`. -/
def ConversationContext.addMessage (ctx : ConversationContext)
    (role content : String) : ConversationContext :=
  let msgs := ctx.messages ++ [⟨role, content⟩]
  if ctx.maxMessages + 1 < msgs.length then
    { ctx with messages := msgs.take 1 ++ pyTakeLast ctx.maxMessages msgs }
  else
    { ctx with messages := msgs }

/-- Run a sequence of `add_message` calls on a freshly created context with
the given capacity. -/
def ConversationContext.runAdds (maxM : ℕ)
    (adds : List (String × String)) : ConversationContext :=
  adds.foldl (fun c m => c.addMessage m.1 m.2)
    { messages := [], maxMessages := maxM }

/-- The eviction step as the claim C9 words it: drop the oldest messages,
but always keep a system prompt at index 0 if one is present. -/
def claimAddMessage (ctx : ConversationContext)
    (role content : String) : ConversationContext :=
  let msgs := ctx.messages ++ [⟨role, content⟩]
  if ctx.maxMessages + 1 < msgs.length then
    match msgs.head? with
    | some m0 =>
        if m0.role == "system" then
          { ctx with messages := msgs.take 1 ++ pyTakeLast ctx.maxMessages msgs }
        else
          { ctx with messages := pyTakeLast (ctx.maxMessages + 1) msgs }
    | none => { ctx with messages := msgs }
  else
    { ctx with messages := msgs }

/-! ## The Claude CLI executor (`src/core/agent/executor.py`) -/

/-- `ExecutorConfig` (executor.py lines 16–23), keeping the fields
`execute` consults. -/
structure ExecutorConfig where
  timeout : ℕ := 600
deriving DecidableEq, Repr

/-- Behaviour of one subprocess invocation: how long `subprocess.run` would
take to finish, and what it would produce. -/
structure SubprocessRun where
  runtime : ℕ
  exitCode : Int
  stdout : String
  stderr : String
deriving DecidableEq, Repr

/-- `ClaudeExecutor.execute` (executor.py lines 134–254), restricted to the
timeout discipline and result construction the claims are about.  Line 157 of
the source is `timeout = timeout if timeout is not None else
self.config.timeout`, so a `None` argument is replaced by the configured
default (600 s) and passed to `subprocess.run`; if the subprocess outlives it,
`subprocess.TimeoutExpired` is caught and an `ExecutionResult` with
`error="Command timed out"` is returned.  Command composition, environment
set-up and file-change extraction are orthogonal to the claims and omitted. -/
def ClaudeExecutor.execute (cfg : ExecutorConfig) (proc : SubprocessRun)
    (timeoutArg : Option ℕ) : ExecutionResult :=
  let timeout := match timeoutArg with
    | some v => v
    | none => cfg.timeout
  if timeout < proc.runtime then
    { success := false, stdout := "", stderr := "", exitCode := -1,
      duration := timeout, error := some "Command timed out" }
  else
    { success := proc.exitCode == 0, stdout := proc.stdout,
      stderr := proc.stderr, exitCode := proc.exitCode,
      duration := proc.runtime, error := none }

/-! ## The task queue (`src/scheduler/task_queue.py`) -/

/-- The task record as the queue sees it (`TaskInfo` from the absent
`core/state/schemas.py`): the queue code reads and writes only `task_id`
and `status` of the fields the claims mention. -/
structure TaskRec where
  taskId : String
  status : TaskStatus
deriving DecidableEq, Repr

/-- `QueueConfig` (task_queue.py lines 15–20); only `max_retries` matters to
the queue operations. -/
structure QueueConfig where
  maxRetries : ℕ := 3
deriving DecidableEq, Repr

/-- `QueueItem` (task_queue.py lines 23–29), without the `added_at`
timestamp. -/
structure QueueItem where
  task : TaskRec
  priority : ℕ
  retries : ℕ
deriving DecidableEq, Repr

/-- The mutable state of a `TaskQueue` (task_queue.py lines 43–49):
`_queue`, `_processing`, `_completed`, `_failed`. -/
structure TaskQueue where
  queue : List QueueItem
  processing : Option QueueItem
  completedL : List QueueItem
  failedL : List QueueItem
deriving DecidableEq, Repr

/-- A freshly constructed queue. -/
def TaskQueue.empty : TaskQueue :=
  { queue := [], processing := none, completedL := [], failedL := [] }

/-- `TaskQueue._find_task` (lines 215–224): look at the processing slot
first, then scan the pending queue.  The completed and failed lists are not
consulted. -/
def TaskQueue.findTask (s : TaskQueue) (tid : String) : Option QueueItem :=
  match s.processing with
  | some item =>
      if item.task.taskId == tid then some item
      else s.queue.find? (fun it => it.task.taskId == tid)
  | none => s.queue.find? (fun it => it.task.taskId == tid)

/-- The priority insertion of `TaskQueue.add` (lines 70–79): insert before
the first queued item with a strictly larger priority number, else append. -/
def insertByPriority (item : QueueItem) : List QueueItem → List QueueItem
  | [] => [item]
  | q :: rest =>
      if item.priority < q.priority then item :: q :: rest
      else q :: insertByPriority item rest

/-- `TaskQueue.add` (lines 51–81): if `_find_task` sees the id already, do
nothing; either way return the task id. -/
def TaskQueue.add (s : TaskQueue) (task : TaskRec) (priority : ℕ) :
    TaskQueue × String :=
  match s.findTask task.taskId with
  | some _ => (s, task.taskId)
  | none =>
      ({ s with queue := insertByPriority ⟨task, priority, 0⟩ s.queue },
       task.taskId)

/-- `TaskQueue.get_next` (lines 87–107): if something is processing return
it unchanged; otherwise pop the queue head, mark it processing. -/
def TaskQueue.getNext (s : TaskQueue) : TaskQueue × Option TaskRec :=
  match s.processing with
  | some item => (s, some item.task)
  | none =>
      match s.queue with
      | [] => (s, none)
      | item :: rest =>
          let item' := { item with task := { item.task with status := .processing } }
          ({ s with queue := rest, processing := some item' }, some item'.task)

/-- `TaskQueue.complete` (lines 109–147): only the processing item with a
matching id can be completed; on success it moves to `_completed`; on
failure it is retried (status back to pending, pushed to the queue front)
while `retries < max_retries`, else it moves to `_failed`. -/
def TaskQueue.complete (cfg : QueueConfig) (s : TaskQueue) (tid : String)
    (success : Bool) : TaskQueue × Bool :=
  match s.processing with
  | none => (s, false)
  | some item =>
      if item.task.taskId == tid then
        if success then
          let fin := { item with task := { item.task with status := .completed } }
          ({ s with processing := none, completedL := s.completedL ++ [fin] }, true)
        else if item.retries < cfg.maxRetries then
          let retried := { item with
            retries := item.retries + 1
            task := { item.task with status := .pending } }
          ({ s with processing := none, queue := retried :: s.queue }, true)
        else
          let fin := { item with task := { item.task with status := .failed } }
          ({ s with processing := none, failedL := s.failedL ++ [fin] }, true)
      else (s, false)

/-- Remove the first queued item with the given id (the loop of
`TaskQueue.cancel`, lines 158–161). -/
def removeFirstById (tid : String) : List QueueItem → List QueueItem × Bool
  | [] => ([], false)
  | it :: rest =>
      if it.task.taskId == tid then (rest, true)
      else
        let r := removeFirstById tid rest
        (it :: r.1, r.2)

/-- `TaskQueue.cancel` (lines 149–163): drop the processing item if it
matches (its status is left untouched), else remove the first queued item
with the id. -/
def TaskQueue.cancel (s : TaskQueue) (tid : String) : TaskQueue × Bool :=
  match s.processing with
  | some item =>
      if item.task.taskId == tid then ({ s with processing := none }, true)
      else
        let r := removeFirstById tid s.queue
        ({ s with queue := r.1 }, r.2)
  | none =>
      let r := removeFirstById tid s.queue
      ({ s with queue := r.1 }, r.2)

/-- The queue operations the claims quantify over. -/
inductive QueueOp where
  | add (task : TaskRec) (priority : ℕ)
  | getNext
  | complete (tid : String) (success : Bool)
  | cancel (tid : String)
deriving DecidableEq, Repr

/-- Apply one queue operation to the state (return values discarded). -/
def TaskQueue.applyOp (cfg : QueueConfig) (s : TaskQueue) : QueueOp → TaskQueue
  | .add task priority => (s.add task priority).1
  | .getNext => s.getNext.1
  | .complete tid success => (TaskQueue.complete cfg s tid success).1
  | .cancel tid => (s.cancel tid).1

/-- Run a sequence of queue operations from a fresh queue. -/
def TaskQueue.runOps (cfg : QueueConfig) (ops : List QueueOp) : TaskQueue :=
  ops.foldl (TaskQueue.applyOp cfg) TaskQueue.empty

/-- The status currently recorded for a task id: the queue items share the
underlying `TaskInfo` object in Python, so the record found in the
processing slot or pending queue (searched first) or else in the terminal
lists carries the task's current status. -/
def TaskQueue.statusOf (s : TaskQueue) (tid : String) : Option TaskStatus :=
  match s.findTask tid with
  | some it => some it.task.status
  | none =>
      ((s.completedL ++ s.failedL).find? (fun it => it.task.taskId == tid)).map
        (fun it => it.task.status)

/-- `tid` occurs neither in the pending queue nor in the processing slot. -/
def TaskQueue.noActive (s : TaskQueue) (tid : String) : Prop :=
  (∀ it ∈ s.queue, it.task.taskId ≠ tid) ∧
    (∀ it ∈ s.processing, it.task.taskId ≠ tid)

/-- Whether an operation is an `add` carrying the given task id. -/
def QueueOp.addsId (tid : String) : QueueOp → Bool
  | .add task _ => task.taskId == tid
  | _ => false

/-- The ids held by the pending queue together with the processing slot. -/
def TaskQueue.activeIds (s : TaskQueue) : List String :=
  (s.processing.elim [] (fun it => [it.task.taskId])) ++
    s.queue.map (fun it => it.task.taskId)

/-! ## The process health monitor (`src/core/supervisor/health_monitor.py`) -/

/-- `TaskType` (health_monitor.py lines 16–23). -/
inductive TaskType where
  | fileOperation
  | codeGeneration
  | analysis
  | refactoring
  | search
  | unknown
deriving DecidableEq, Repr

/-- `HealthMonitorConfig` (lines 26–41): per-task-type inactivity thresholds
and the heartbeat interval, in seconds. -/
structure HealthMonitorConfig where
  thresholds : TaskType → ℕ
  heartbeatInterval : ℕ

/-- The default configuration (lines 30–39). -/
def defaultHealthMonitorConfig : HealthMonitorConfig where
  thresholds
    | .fileOperation => 60
    | .codeGeneration => 120
    | .analysis => 180
    | .refactoring => 240
    | .search => 90
    | .unknown => 120
  heartbeatInterval := 30

/-- `ProcessHealthMonitor._detect_task_type` (lines 84–114): keyword
classification of the prompt. -/
def ProcessHealthMonitor.detectTaskType (prompt : String) : TaskType :=
  let pl := pyLower prompt
  if anyKeywordIn pl ["创建", "生成", "write", "create", "generate"] then
    if anyKeywordIn pl ["fastapi", "flask", "django", "fastapi项目", "web项目"] then
      .codeGeneration
    else
      .fileOperation
  else if anyKeywordIn pl ["分析", "review", "analyze", "检查", "审查"] then
    .analysis
  else if anyKeywordIn pl ["重构", "refactor", "优化", "optimize", "重写"] then
    .refactoring
  else if anyKeywordIn pl ["搜索", "search", "查找", "find", "定位"] then
    .search
  else
    .unknown

/-- `ProcessHealthMonitor._get_activity_threshold` (lines 116–126). -/
def ProcessHealthMonitor.getActivityThreshold (cfg : HealthMonitorConfig)
    (tt : TaskType) : ℕ :=
  cfg.thresholds tt

/-- `MonitoredResult` (executor_monitor.py lines 44–60), keeping the fields
the claims mention; defaults as in the dataclass. -/
structure MonitoredResult where
  success : Bool
  stdout : String := ""
  stderr : String := ""
  exitCode : Int := 0
  duration : ℕ := 0
  error : Option String := none
deriving DecidableEq, Repr

/-- The notification and cancellation calls the monitor makes, in order. -/
inductive MonitorEvent where
  | healthAlert
  | cancelExec
  | interruptedNotice
deriving DecidableEq, Repr

/-- The outcome of one monitored execution. -/
inductive MonitorOutcome where
  | finished (result : MonitoredResult) (events : List MonitorEvent)
  | interrupted (result : MonitoredResult) (events : List MonitorEvent)
  | outOfFuel
deriving DecidableEq, Repr

/-- Behaviour of the executor task spawned at line 262: the wall-clock time
(seconds from start) at which `execute_async` would complete, the cumulative
length of the stdout the subprocess has produced by a given time, and the
`ExecutionResult` it returns on completion. -/
structure ExecBehavior where
  finishTime : ℕ
  outputAt : ℕ → ℕ
  result : ExecutionResult

/-- The `MonitoredResult` built on the normal-completion path (lines
373–428): the executor's own result, with the duration recomputed. -/
def finishedResult (beh : ExecBehavior) : MonitoredResult :=
  { success := beh.result.success, stdout := beh.result.stdout,
    stderr := beh.result.stderr, exitCode := beh.result.exitCode,
    duration := beh.finishTime, error := beh.result.error }

/-- The error string of `_create_interrupted_result` (line 344):
`f"进程无响应 ({inactive_seconds}秒)"`. -/
def noActivityReason (n : ℕ) : String :=
  "进程无响应 (" ++ toString n ++ "秒)"

/-- The monitoring loop of `execute_with_health_monitoring` (lines 266–347),
one recursive step per heartbeat.  `k` counts completed heartbeats, so the
current wall-clock time at the top of the loop is `k * hb`.  The arguments
mirror the loop state: `last_activity_time`, `last_output_len`,
`inactive_periods` (`check_count` is `k + 1`).  `fuel` only bounds the
recursion; it never runs out when `hb ≥ 1` and the executor terminates.

Line 293 of the source is

`current_output_len = len(exec_task.result().stdout) if exec_task.done() else last_output_len`

and is reached only after the `if exec_task.done(): break` on line 289, so
the conditional re-tests `done` exactly as the Python line does. -/
def ProcessHealthMonitor.monitorLoop (hb threshold : ℕ) (beh : ExecBehavior) :
    ℕ → ℕ → ℕ → ℕ → ℕ → MonitorOutcome
  | 0, _, _, _, _ => .outOfFuel
  | fuel + 1, k, lastActivityTime, lastOutputLen, inactivePeriods =>
    if beh.finishTime ≤ k * hb then
      -- `while not exec_task.done()` exits; collect the executor result
      .finished (finishedResult beh) []
    else
      -- `asyncio.wait_for(exec_task, timeout=heartbeat_interval)`
      let t := (k + 1) * hb
      if beh.finishTime ≤ t then
        -- `if exec_task.done(): break` (line 289)
        .finished (finishedResult beh) []
      else
        -- line 293: the `done` test is False here, so the sample degenerates
        let currentOutputLen :=
          if beh.finishTime ≤ t then beh.outputAt t else lastOutputLen
        if lastOutputLen < currentOutputLen then
          -- lines 296–301: record activity, reset the inactive counter
          ProcessHealthMonitor.monitorLoop hb threshold beh fuel (k + 1) t
            currentOutputLen 0
        else
          -- lines 302–304: one more inactive period
          let inactivePeriods' := inactivePeriods + 1
          let inactiveSeconds := t - lastActivityTime
          if 2 ≤ inactivePeriods' ∧ threshold ≤ inactiveSeconds then
            -- lines 313–347: alert, cancel, notify, interrupted result
            .interrupted
              { success := false, stdout := "", stderr := "", exitCode := 0,
                duration := t, error := some (noActivityReason inactiveSeconds) }
              [.healthAlert, .cancelExec, .interruptedNotice]
          else
            ProcessHealthMonitor.monitorLoop hb threshold beh fuel (k + 1)
              lastActivityTime lastOutputLen inactivePeriods'

/-- `ProcessHealthMonitor.execute_with_health_monitoring` (lines 198–439):
infer the task type from the prompt, pick the threshold, and run the
heartbeat loop with `last_activity_time = start_time`, `last_output_len = 0`,
`inactive_periods = 0`.  The progress-reporting phases and the validator pass
on the completion path do not affect the fields the claims mention and are
omitted. -/
def ProcessHealthMonitor.executeWithHealthMonitoring
    (cfg : HealthMonitorConfig) (prompt : String) (beh : ExecBehavior) :
    MonitorOutcome :=
  ProcessHealthMonitor.monitorLoop cfg.heartbeatInterval
    (ProcessHealthMonitor.getActivityThreshold cfg
      (ProcessHealthMonitor.detectTaskType prompt))
    beh (beh.finishTime + 1) 0 0 0 0

/-! ## Understanding-agent keyword fallback
(`src/core/agent/task_understanding.py`) -/

/-- The six intent values (`UnderstandingResult.intent_type`). -/
inductive IntentType where
  | newTask
  | contTask
  | modifyTask
  | cancelTask
  | clarification
  | confirm
deriving DecidableEq, Repr

/-- `TaskUnderstandingResult` (the dataclass returned by the agent),
keeping the fields the claims mention. -/
structure TaskUnderstandingResult where
  intentType : IntentType
  understanding : String
  shouldInterrupt : Bool
  contextSummary : String
  confidence : ℚ
  suggestedQuestions : List String
deriving DecidableEq, Repr

/-- The keyword classification inside
`TaskUnderstandingAgent._fallback_result` (task_understanding.py lines
235–252): the if/elif chain over `original_prompt.lower()`. -/
def TaskUnderstandingAgent.fallbackIntent (originalPrompt : String) : IntentType :=
  let pl := pyLower originalPrompt
  if anyKeywordIn pl ["?", "？", "什么", "如何", "怎么", "why", "how", "是不是", "是否"] then
    .clarification
  else if anyKeywordIn pl ["好的", "可以", "开始吧", "执行吧", "是", "yes", "ok", "okay", "确认"] then
    .confirm
  else if anyKeywordIn pl ["取消", "停止", "不用", "cancel", "stop"] then
    .cancelTask
  else if anyKeywordIn pl ["继续", "还有", "另外", "并且"] then
    .contTask
  else if anyKeywordIn pl ["改成", "改为", "改一下", "修改", "换一种"] then
    .modifyTask
  else
    .newTask

/-- `TaskUnderstandingAgent._fallback_result` (lines 229–260): the result
returned when JSON parsing of the LLM response fails. -/
def TaskUnderstandingAgent.fallbackResult (originalPrompt : String)
    (_error : String) : TaskUnderstandingResult :=
  { intentType := TaskUnderstandingAgent.fallbackIntent originalPrompt
    understanding := "用户发送了: " ++ pyTake 100 originalPrompt
    shouldInterrupt := false
    contextSummary := "解析失败，使用关键词推断"
    confidence := 1/2
    suggestedQuestions := [] }

/-- The fallback classification exactly as claim C6 words it: clarification
is triggered by question marks alone, the remaining categories by the
agent's keyword sets, anything else is a new task. -/
def claimFallbackIntent (originalPrompt : String) : IntentType :=
  let pl := pyLower originalPrompt
  if containsSub pl "?" || containsSub pl "？" then
    .clarification
  else if anyKeywordIn pl ["好的", "可以", "开始吧", "执行吧", "是", "yes", "ok", "okay", "确认"] then
    .confirm
  else if anyKeywordIn pl ["取消", "停止", "不用", "cancel", "stop"] then
    .cancelTask
  else if anyKeywordIn pl ["继续", "还有", "另外", "并且"] then
    .contTask
  else if anyKeywordIn pl ["改成", "改为", "改一下", "修改", "换一种"] then
    .modifyTask
  else
    .newTask

/-- The fallback classification as amended: question marks *or* the
interrogative keywords (什么, 如何, 怎么, why, how, 是不是, 是否) trigger
clarification; the rest of the chain is as the claim states it. -/
def amendedFallbackIntent (originalPrompt : String) : IntentType :=
  let pl := pyLower originalPrompt
  if containsSub pl "?" || containsSub pl "？" ||
      anyKeywordIn pl ["什么", "如何", "怎么", "why", "how", "是不是", "是否"] then
    .clarification
  else if anyKeywordIn pl ["好的", "可以", "开始吧", "执行吧", "是", "yes", "ok", "okay", "确认"] then
    .confirm
  else if anyKeywordIn pl ["取消", "停止", "不用", "cancel", "stop"] then
    .cancelTask
  else if anyKeywordIn pl ["继续", "还有", "另外", "并且"] then
    .contTask
  else if anyKeywordIn pl ["改成", "改为", "改一下", "修改", "换一种"] then
    .modifyTask
  else
    .newTask

/-! ## The pipeline (`src/main.py`) -/

/-- `RefinedResult` (from the absent `core/state/schemas.py`; spec §3),
keeping the fields `_process_task` consults. -/
structure RefinedResult where
  refinedPrompt : String
  clarifications : List String
  suggestedSteps : List String
  confidence : ℚ
  intentType : String
  reasoning : String
deriving DecidableEq, Repr

/-- The externally observable steps `HermesApplication._process_task`
takes, in order. -/
inductive PipelineAction where
  | executeConfirm
  | replyUnderstanding
  | replyInterrupt
  | refineCall
  | setStatus (st : TaskStatus)
  | replyRefined
  | replyClarifications
  | pauseBeforeExecute
  | executeMonitored
  | replyResult
deriving DecidableEq, Repr

/-- The branching skeleton of `HermesApplication._process_task` (main.py
lines 685–900), as the ordered list of its externally observable steps.
`und` is the understanding result, `hasCurrentTask` whether a task with
status `processing` was found in the recent context, and `refined` the
value the Refiner returns when it is called.  The `confirm` branch (lines
719–734) executes the current task directly and returns without running the
Refiner; the escalation branch (lines 770–778) replies with the
clarification questions, marks the task completed and returns without
executing.  The post-execution bookkeeping (report generation, state and
memory updates) is summarised as `replyResult`. -/
def HermesApplication.processTask (und : TaskUnderstandingResult)
    (hasCurrentTask : Bool) (refined : RefinedResult) : List PipelineAction :=
  if und.intentType = .confirm ∧ hasCurrentTask = true then
    [.executeConfirm, .replyResult]
  else
    [.replyUnderstanding] ++
    (if und.shouldInterrupt = true ∧ hasCurrentTask = true then
      [.replyInterrupt] else []) ++
    [.refineCall, .setStatus .processing, .replyRefined] ++
    (if refined.clarifications ≠ [] ∧ refined.confidence < 3/5 then
      [.replyClarifications, .setStatus .completed]
    else
      [.pauseBeforeExecute, .executeMonitored, .replyResult])

/-- The timeout-like error test of the post-processing step (main.py lines
845–847 and 1020–1022): `"timed out" in error.lower() or "无响应" in
error`. -/
def timeoutLikeError (e : String) : Bool :=
  containsSub (pyLower e) "timed out" || containsSub e "无响应"

/-- The error text as Python truthiness sees it (`exec_result.error`):
`None` and the empty string are falsy. -/
def errText : Option String → String
  | none => ""
  | some e => e

/-- The timeout post-processing of `_process_task` /
`_handle_execution_result` (main.py lines 844–854 and 1019–1029): a failed
result with a timeout-like error and non-blank stdout is promoted to
success with the error cleared. -/
def HermesApplication.postProcessTimeout (r : ExecutionResult) : ExecutionResult :=
  if r.success = false ∧ errText r.error ≠ "" then
    if timeoutLikeError (errText r.error) then
      if r.stdout ≠ "" ∧ 0 < (pyStrip r.stdout).length then
        { r with success := true, error := some "" }
      else r
    else r
  else r

/-- `HermesApplication._handle_execution_result` (main.py lines 994–1080),
reduced to what the claims mention: the timeout post-processing runs first,
then the reply branch is chosen on the (possibly promoted) success flag;
`true` stands for the success reply, `false` for the failure reply. -/
def HermesApplication.handleExecutionResult (r : ExecutionResult) :
    ExecutionResult × Bool :=
  let r' := HermesApplication.postProcessTimeout r
  (r', r'.success)

/-! ## Concrete executor behaviours used in the theorems below -/

/-- An executor whose output strictly grows every second (so it grows within
every heartbeat interval) and which would finish, successfully, at 400 s. -/
def growingBeh : ExecBehavior where
  finishTime := 400
  outputAt := fun t => t
  result := { success := true, stdout := "done", stderr := "", exitCode := 0,
              duration := 400, error := none }

/-- The executor of spec scenario 3: it emits 10 bytes of stdout in the
first second and nothing afterwards, and would finish at 1000 s. -/
def stalledBeh : ExecBehavior where
  finishTime := 1000
  outputAt := fun t => if 1 ≤ t then 10 else 0
  result := { success := true, stdout := "abcdefghij", stderr := "",
              exitCode := 0, duration := 1000, error := none }

/-! ## Theorems -/

/-- C1.  The supervisor-liveness claim fails on the code, and the code
contradicts its own stated design: line 293 of health_monitor.py samples
`len(exec_task.result().stdout)` only `if exec_task.done()`, which is never
the case at that point (line 289 has just broken out of the loop when the
task is done), so the sampled length always equals `last_output_len`,
growth is never observed, and `inactive_periods` is never reset.  Concretely:
an executor whose output strictly grows at every instant (hence grows in
every heartbeat interval) is nevertheless cancelled at the fourth heartbeat
(120 s, the `unknown` threshold), even though it would have completed
successfully at 400 s. -/
theorem supervisor_cancels_despite_output_growth :
    (∀ t u : ℕ, t < u → growingBeh.outputAt t < growingBeh.outputAt u) ∧
    ProcessHealthMonitor.executeWithHealthMonitoring defaultHealthMonitorConfig
        "hello world" growingBeh =
      .interrupted
        { success := false, stdout := "", stderr := "", exitCode := 0,
          duration := 120, error := some "进程无响应 (120秒)" }
        [.healthAlert, .cancelExec, .interruptedNotice] :=
  ⟨fun _ _ h => h, by decide⟩

/-- C3.  The claim that `execute` with `timeout=None` never times out fails
on the code, which contradicts its own doc comment (executor.py line 147:
"为 None 时使用 ProcessHealthMonitor 控制，不再强制超时"): line 157 replaces a
`None` timeout by `config.timeout` (default 600 s), so a subprocess running
601 s under `timeout=None` yields the "Command timed out" failure; in
general, `timeout=None` behaves exactly like `timeout=config.timeout`. -/
theorem execute_none_timeout_uses_config_timeout :
    ClaudeExecutor.execute {}
        { runtime := 601, exitCode := 0, stdout := "partial", stderr := "" }
        none =
      { success := false, stdout := "", stderr := "", exitCode := -1,
        duration := 600, error := some "Command timed out" } ∧
    ∀ (cfg : ExecutorConfig) (proc : SubprocessRun),
      ClaudeExecutor.execute cfg proc none =
        ClaudeExecutor.execute cfg proc (some cfg.timeout) :=
  ⟨by decide, fun _ _ => rfl⟩

/-- C2 counterexample.  In the run of spec scenario 3 (analysis prompt,
threshold 180 s, 10 bytes of stdout then silence) the monitor interrupts at
180 s with an empty `stdout` in the returned result, although the executor
had produced 10 bytes by then: the partial stdout is *not* preserved
(`_create_interrupted_result`, health_monitor.py lines 441–475, never
copies any stdout into the result, and the cancelled task's output is
unreachable anyway). -/
theorem health_monitor_partial_stdout_not_preserved :
    ProcessHealthMonitor.executeWithHealthMonitoring defaultHealthMonitorConfig
        "analyze the code" stalledBeh =
      .interrupted
        { success := false, stdout := "", stderr := "", exitCode := 0,
          duration := 180, error := some "进程无响应 (180秒)" }
        [.healthAlert, .cancelExec, .interruptedNotice] ∧
    stalledBeh.outputAt 180 = 10 ∧
    ¬ (("" : String).length = stalledBeh.outputAt 180) :=
  ⟨by decide, by decide, by decide⟩

/-- C4 counterexample.  Queue monotonicity fails as stated: after
`add t1; get_next; complete t1 success` the task's status is the terminal
`completed`, but `_find_task` (task_queue.py lines 215–224) never looks at
the `_completed` list, so a further `add` with the same id re-enqueues the
task and `get_next` moves it back to `processing`. -/
theorem queue_readd_revives_terminal_task :
    TaskQueue.statusOf
        (TaskQueue.runOps {}
          [.add ⟨"t1", .pending⟩ 0, .getNext, .complete "t1" true]) "t1" =
      some .completed ∧
    TaskStatus.isTerminal .completed = true ∧
    TaskQueue.statusOf
        (TaskQueue.runOps {}
          [.add ⟨"t1", .pending⟩ 0, .getNext, .complete "t1" true,
           .add ⟨"t1", .completed⟩ 0, .getNext]) "t1" =
      some .processing :=
  ⟨by decide, rfl, by decide⟩

/-- C6 counterexample.  The claim's fallback table ("question marks give
clarification, … anything else gives new_task") mispredicts the code on the
prompt "how": it contains no question mark and no affirmation, negation,
continuation or modification keyword, so the claim classifies it as a new
task, but `_fallback_result` (task_understanding.py line 239) also treats
the interrogative words 什么/如何/怎么/why/how/是不是/是否 as clarification
triggers. -/
theorem fallback_question_word_contradicts_claim :
    TaskUnderstandingAgent.fallbackIntent "how" = .clarification ∧
    claimFallbackIntent "how" = .newTask ∧
    (TaskUnderstandingAgent.fallbackResult "how" "json error").intentType ≠
      claimFallbackIntent "how" :=
  ⟨by decide, by decide, by decide⟩

/-- C8 counterexample.  The retention bound fails for a context constructed
with `max_messages = 0`: Python's `messages[-0:]` is the whole list, so the
truncation branch of `add_message` *grows* the list; after two adds the
list has 3 messages, exceeding `max_messages + 1 = 1`. -/
theorem retention_bound_fails_at_zero_capacity :
    (ConversationContext.runAdds 0 [("user", "a"), ("user", "b")]).messages.length = 3 ∧
    (ConversationContext.runAdds 0 [("user", "a"), ("user", "b")]).maxMessages = 0 ∧
    ¬ ((3 : ℕ) ≤ 0 + 1) :=
  ⟨by decide, by decide, by decide⟩

/-- C9 counterexample.  When capacity is exceeded the code keeps the message
at index 0 whether or not it is a system prompt: with capacity 1 and two
user messages `u1, u2`, adding `u3` yields `[u1, u3]` — the dropped message
`u2` is *not* the oldest, while the claim ("drop the oldest, keep a system
prompt at index 0 if present"; here none is present) predicts `[u2, u3]`. -/
theorem eviction_keeps_index_zero_regardless_of_role :
    (ConversationContext.addMessage
        ⟨[⟨"user", "u1"⟩, ⟨"user", "u2"⟩], 1⟩ "user" "u3").messages =
      [⟨"user", "u1"⟩, ⟨"user", "u3"⟩] ∧
    (claimAddMessage
        ⟨[⟨"user", "u1"⟩, ⟨"user", "u2"⟩], 1⟩ "user" "u3").messages =
      [⟨"user", "u2"⟩, ⟨"user", "u3"⟩] ∧
    ([⟨"user", "u1"⟩, ⟨"user", "u3"⟩] : List ConversationMessage) ≠
      [⟨"user", "u2"⟩, ⟨"user", "u3"⟩] :=
  ⟨by decide, by decide, by decide⟩

/-- The code's fallback intent agrees with the amended description (the
only change: clarification is triggered by question marks *or* the
interrogative keywords, not question marks alone). -/
theorem fallbackIntent_eq_amended (p : String) :
    TaskUnderstandingAgent.fallbackIntent p = amendedFallbackIntent p := by
  unfold TaskUnderstandingAgent.fallbackIntent amendedFallbackIntent anyKeywordIn
  simp only [List.any_cons, List.any_nil, Bool.or_false, Bool.or_assoc]

/-- C6 (amended).  When JSON parsing fails, the fallback result's intent is
given by the priority chain with clarification triggered by question marks
or interrogative keywords (什么, 如何, 怎么, why, how, 是不是, 是否),
affirmation keywords giving confirm, negation keywords giving cancel,
continuation keywords giving continue, modification keywords giving modify
and anything else giving new_task; the result has confidence 0.5 and does
not request an interrupt. -/
theorem fallback_result_matches_amended_heuristics (p e : String) :
    (TaskUnderstandingAgent.fallbackResult p e).intentType = amendedFallbackIntent p ∧
    (TaskUnderstandingAgent.fallbackResult p e).confidence = 1/2 ∧
    (TaskUnderstandingAgent.fallbackResult p e).shouldInterrupt = false :=
  ⟨fallbackIntent_eq_amended p, rfl, rfl⟩

/-- C7.  Pipeline timeout promotion: a failed result whose error text is
timeout-like (contains "timed out" case-insensitively, or the no-activity
marker "无响应") is promoted to success with the error cleared when its
stdout is non-blank, and left a failure when its stdout is blank; the reply
branch is then chosen on the promoted success flag. -/
theorem timeout_promotion_with_nonempty_stdout
    (r : ExecutionResult) (e : String)
    (herr : r.error = some e) (hne : e ≠ "") (htl : timeoutLikeError e = true)
    (hfail : r.success = false) :
    (pyStrip r.stdout ≠ "" →
      HermesApplication.handleExecutionResult r =
        ({ r with success := true, error := some "" }, true)) ∧
    (pyStrip r.stdout = "" →
      HermesApplication.handleExecutionResult r = (r, false)) := by
  have herrtext : errText r.error = e := by rw [herr]; rfl
  constructor
  · intro hs
    have hstdout : r.stdout ≠ "" := fun h0 => hs (by rw [h0]; decide)
    have hlen : 0 < (pyStrip r.stdout).length := by
      rcases hsd : pyStrip r.stdout with ⟨data⟩
      cases data with
      | nil => exact absurd hsd (by simpa using hs)
      | cons c cs => simp [String.length]
    simp [HermesApplication.handleExecutionResult,
          HermesApplication.postProcessTimeout, herrtext, hne, htl, hfail,
          hstdout, hlen]
  · intro hs
    have hcond : ¬ (r.stdout ≠ "" ∧ 0 < (pyStrip r.stdout).length) := by
      rintro ⟨-, hpos⟩
      rw [hs] at hpos
      exact absurd hpos (by decide)
    simp [HermesApplication.handleExecutionResult,
          HermesApplication.postProcessTimeout, herrtext, hne, htl, hfail,
          hcond]

/-- C7 witness: a concrete interrupted result with non-blank stdout is
promoted to success with a cleared error and routed to the success reply. -/
theorem timeout_promotion_with_nonempty_stdout_witness :
    HermesApplication.handleExecutionResult
        ⟨false, "partial output", "", -1, 10, some "Command timed out"⟩ =
      (⟨true, "partial output", "", -1, 10, some ""⟩, true) :=
  (timeout_promotion_with_nonempty_stdout
      ⟨false, "partial output", "", -1, 10, some "Command timed out"⟩
      "Command timed out" rfl (by decide) (by decide) rfl).1 (by decide)

/-- C5.  Refinement escalation: whenever the pipeline runs the Refiner (it
does not run it only on the confirm-with-active-task branch) and the
Refiner returns confidence below 0.6 together with a non-empty
clarification list, the pipeline never invokes the Executor (neither the
direct confirm execution nor the monitored one), replies with the
clarification questions, and its last state update marks the task
completed. -/
theorem refinement_escalation_skips_executor
    (und : TaskUnderstandingResult) (hasCurrentTask : Bool)
    (refined : RefinedResult)
    (hconf : refined.confidence < 3/5) (hclar : refined.clarifications ≠ [])
    (hnc : ¬ (und.intentType = .confirm ∧ hasCurrentTask = true)) :
    PipelineAction.executeConfirm ∉
        HermesApplication.processTask und hasCurrentTask refined ∧
    PipelineAction.executeMonitored ∉
        HermesApplication.processTask und hasCurrentTask refined ∧
    PipelineAction.replyClarifications ∈
        HermesApplication.processTask und hasCurrentTask refined ∧
    (HermesApplication.processTask und hasCurrentTask refined).getLast? =
      some (.setStatus .completed) := by
  unfold HermesApplication.processTask
  rw [if_neg hnc]
  by_cases hint : und.shouldInterrupt = true ∧ hasCurrentTask = true
  · rw [if_pos hint, if_pos ⟨hclar, hconf⟩]; decide
  · rw [if_neg hint, if_pos ⟨hclar, hconf⟩]; decide

/-- C5 witness: spec scenario 2 — a vague prompt, no active task, Refiner
confidence 0.3 with two clarification questions; the pipeline replies with
the questions, marks the task completed and never executes. -/
theorem refinement_escalation_skips_executor_witness :
    PipelineAction.executeConfirm ∉
        HermesApplication.processTask ⟨.newTask, "改一下", false, "", 7/10, []⟩
          false ⟨"改一下", ["改哪个文件?", "改什么?"], [], 3/10, "new_task", ""⟩ ∧
    PipelineAction.executeMonitored ∉
        HermesApplication.processTask ⟨.newTask, "改一下", false, "", 7/10, []⟩
          false ⟨"改一下", ["改哪个文件?", "改什么?"], [], 3/10, "new_task", ""⟩ ∧
    PipelineAction.replyClarifications ∈
        HermesApplication.processTask ⟨.newTask, "改一下", false, "", 7/10, []⟩
          false ⟨"改一下", ["改哪个文件?", "改什么?"], [], 3/10, "new_task", ""⟩ ∧
    (HermesApplication.processTask ⟨.newTask, "改一下", false, "", 7/10, []⟩
        false ⟨"改一下", ["改哪个文件?", "改什么?"], [], 3/10, "new_task", ""⟩).getLast? =
      some (.setStatus .completed) :=
  refinement_escalation_skips_executor _ _ _ (by norm_num) (by decide) (by decide)

/-- Any interrupted outcome of the monitoring loop carries a failed result
with empty stdout, the alert–cancel–notify event order, and a no-activity
error naming at least the threshold's worth of inactive seconds. -/
theorem monitorLoop_interrupted_shape (hb threshold : ℕ) (beh : ExecBehavior) :
    ∀ (fuel k lastActivityTime lastOutputLen inactivePeriods : ℕ)
      (r : MonitoredResult) (evs : List MonitorEvent),
      ProcessHealthMonitor.monitorLoop hb threshold beh fuel k lastActivityTime
          lastOutputLen inactivePeriods = .interrupted r evs →
      r.success = false ∧ r.stdout = "" ∧
        evs = [.healthAlert, .cancelExec, .interruptedNotice] ∧
        ∃ n, threshold ≤ n ∧ n ≤ r.duration ∧
          r.error = some (noActivityReason n) := by
  intro fuel
  induction fuel with
  | zero =>
    intro k la lol ip r evs h
    simp [ProcessHealthMonitor.monitorLoop] at h
  | succ fuel ih =>
    intro k la lol ip r evs h
    simp only [ProcessHealthMonitor.monitorLoop] at h
    split at h
    · simp at h
    · split at h
      · simp at h
      · split at h
        · exact ih _ _ _ _ _ _ h
        · split at h
          · rename_i hcond
            cases h
            exact ⟨rfl, rfl, rfl, (k + 1) * hb - la, hcond.2, Nat.sub_le _ _, rfl⟩
          · exact ih _ _ _ _ _ _ h

/-- C2 (amended).  When `execute_with_health_monitoring` classifies the
executor as unresponsive, the returned result has `success = false`, the
no-activity error `进程无响应 (N秒)` with `N` at least the task-type
threshold and at most the recorded duration, the duration set — but an
*empty* stdout (the partial stdout is not preserved; see the
counterexample theorem); the alert notification precedes the cancellation
and the interrupted notification follows it. -/
theorem health_monitor_interrupted_result_shape
    (cfg : HealthMonitorConfig) (prompt : String) (beh : ExecBehavior)
    (r : MonitoredResult) (evs : List MonitorEvent)
    (h : ProcessHealthMonitor.executeWithHealthMonitoring cfg prompt beh =
      .interrupted r evs) :
    r.success = false ∧ r.stdout = "" ∧
      evs = [.healthAlert, .cancelExec, .interruptedNotice] ∧
      ∃ n, ProcessHealthMonitor.getActivityThreshold cfg
          (ProcessHealthMonitor.detectTaskType prompt) ≤ n ∧
        n ≤ r.duration ∧ r.error = some (noActivityReason n) :=
  monitorLoop_interrupted_shape _ _ _ _ _ _ _ _ _ _ h

/-- C2 witness: the interrupted run of spec scenario 3 instantiates the
shape theorem at a concrete behaviour (analysis prompt, threshold 180 s). -/
theorem health_monitor_interrupted_result_shape_witness :
    (MonitoredResult.mk false "" "" 0 180 (some (noActivityReason 180))).success = false ∧
    (MonitoredResult.mk false "" "" 0 180 (some (noActivityReason 180))).stdout = "" ∧
    ([MonitorEvent.healthAlert, .cancelExec, .interruptedNotice] :
        List MonitorEvent) = [.healthAlert, .cancelExec, .interruptedNotice] ∧
    ∃ n, ProcessHealthMonitor.getActivityThreshold defaultHealthMonitorConfig
        (ProcessHealthMonitor.detectTaskType "analyze the code") ≤ n ∧
      n ≤ (MonitoredResult.mk false "" "" 0 180 (some (noActivityReason 180))).duration ∧
      (MonitoredResult.mk false "" "" 0 180 (some (noActivityReason 180))).error =
        some (noActivityReason n) :=
  health_monitor_interrupted_result_shape defaultHealthMonitorConfig
    "analyze the code" stalledBeh
    (MonitoredResult.mk false "" "" 0 180 (some (noActivityReason 180)))
    [MonitorEvent.healthAlert, .cancelExec, .interruptedNotice] (by decide)

/-- `add_message` leaves the capacity field unchanged. -/
theorem addMessage_maxMessages (ctx : ConversationContext) (role content : String) :
    (ctx.addMessage role content).maxMessages = ctx.maxMessages := by
  simp only [ConversationContext.addMessage]
  split <;> rfl

/-- With a positive capacity, one `add_message` call leaves at most
`max_messages + 1` messages (the truncation branch produces exactly
`max_messages + 1`, the other branch is only taken below the bound). -/
theorem addMessage_length_le (ctx : ConversationContext) (role content : String)
    (hmax : 1 ≤ ctx.maxMessages) :
    (ctx.addMessage role content).messages.length ≤ ctx.maxMessages + 1 := by
  simp only [ConversationContext.addMessage]
  split
  · rename_i h
    have h0 : ¬ ctx.maxMessages = 0 := by omega
    simp only [pyTakeLast, if_neg h0, List.length_append, List.length_take,
      List.length_drop, List.length_cons, List.length_nil]
    omega
  · rename_i h
    simp only [List.length_append, List.length_cons, List.length_nil] at h ⊢
    omega

/-- C8 (amended).  Session retention bound: for every capacity
`max_messages ≥ 1` and every sequence of `add_message` calls on a fresh
context, the message list never exceeds `max_messages + 1` entries (for
`max_messages = 0` the bound fails; see the counterexample theorem). -/
theorem retention_bound_holds_for_positive_capacity
    (maxM : ℕ) (hmax : 1 ≤ maxM) (adds : List (String × String)) :
    (ConversationContext.runAdds maxM adds).messages.length ≤ maxM + 1 := by
  have key : ∀ (l : List (String × String)) (ctx : ConversationContext),
      1 ≤ ctx.maxMessages → ctx.messages.length ≤ ctx.maxMessages + 1 →
      (l.foldl (fun c m => c.addMessage m.1 m.2) ctx).messages.length ≤
          (l.foldl (fun c m => c.addMessage m.1 m.2) ctx).maxMessages + 1 ∧
        (l.foldl (fun c m => c.addMessage m.1 m.2) ctx).maxMessages =
          ctx.maxMessages := by
    intro l
    induction l with
    | nil => exact fun ctx _ h2 => ⟨h2, rfl⟩
    | cons m rest ih =>
      intro ctx h1 h2
      simp only [List.foldl_cons]
      have h3 := addMessage_maxMessages ctx m.1 m.2
      have h4 := ih (ctx.addMessage m.1 m.2) (by rw [h3]; exact h1)
        (by rw [h3]; exact addMessage_length_le ctx m.1 m.2 h1)
      exact ⟨h4.1, by rw [h4.2, h3]⟩
  obtain ⟨hle, hmaxeq⟩ :=
    key adds { messages := [], maxMessages := maxM } hmax (by simp)
  rw [hmaxeq] at hle
  exact hle

/-- C8 witness: capacity 2, five adds, at most three messages retained. -/
theorem retention_bound_holds_for_positive_capacity_witness :
    (ConversationContext.runAdds 2
        [("system", "s"), ("user", "a"), ("assistant", "b"), ("user", "c"),
         ("assistant", "d")]).messages.length ≤ 2 + 1 :=
  retention_bound_holds_for_positive_capacity 2 (by decide)
    [("system", "s"), ("user", "a"), ("assistant", "b"), ("user", "c"),
     ("assistant", "d")]

/-- C9 (amended).  Eviction shape: with a positive capacity, when an
`add_message` call exceeds it, the retained list is exactly the message at
index 0 (kept whether or not it is a system prompt), followed by the newest
`max_messages − 1` old messages in their original order, followed by the
new message — so the dropped messages are the oldest ones *among those at
index ≥ 1*, and a system prompt at index 0, when present, is kept. -/
theorem eviction_shape_amended (ctx : ConversationContext) (role content : String)
    (hmax : 1 ≤ ctx.maxMessages) (hover : ctx.maxMessages < ctx.messages.length) :
    (ctx.addMessage role content).messages =
      ctx.messages.take 1 ++
        ctx.messages.drop (ctx.messages.length + 1 - ctx.maxMessages) ++
        [⟨role, content⟩] := by
  simp only [ConversationContext.addMessage]
  rw [if_pos (by simp only [List.length_append, List.length_cons,
    List.length_nil]; omega)]
  simp only [pyTakeLast]
  rw [if_neg (by omega)]
  simp only [List.length_append, List.length_cons, List.length_nil]
  rw [List.take_append_eq_append_take, List.drop_append_eq_append_drop]
  have h1 : (1 : ℕ) - ctx.messages.length = 0 := by omega
  have h2 : ctx.messages.length + 1 - ctx.maxMessages - ctx.messages.length = 0 := by
    omega
  simp [h1, h2]

/-- C9 witness: capacity 2, three old messages; the head and the newest old
message survive together with the added one. -/
theorem eviction_shape_amended_witness :
    (ConversationContext.addMessage
        ⟨[⟨"system", "s"⟩, ⟨"user", "a"⟩, ⟨"user", "b"⟩], 2⟩ "user" "c").messages =
      ([⟨"system", "s"⟩, ⟨"user", "a"⟩, ⟨"user", "b"⟩] :
          List ConversationMessage).take 1 ++
        ([⟨"system", "s"⟩, ⟨"user", "a"⟩, ⟨"user", "b"⟩] :
          List ConversationMessage).drop (3 + 1 - 2) ++
        [⟨"user", "c"⟩] :=
  eviction_shape_amended ⟨[⟨"system", "s"⟩, ⟨"user", "a"⟩, ⟨"user", "b"⟩], 2⟩
    "user" "c" (by decide) (by decide)

/-- Membership in the priority insertion. -/
theorem insertByPriority_mem {it x : QueueItem} {l : List QueueItem} :
    x ∈ insertByPriority it l ↔ x = it ∨ x ∈ l := by
  induction l with
  | nil => simp [insertByPriority]
  | cons q rest ih =>
    simp only [insertByPriority]
    split
    · simp [List.mem_cons]
    · simp only [List.mem_cons, ih]
      tauto

/-- `find?` ignores an element, inserted between two list parts, that the
predicate rejects. -/
theorem find?_middle_none {α : Type} (p : α → Bool) (l₁ l₂ : List α) (b : α)
    (hb : p b = false) :
    ((l₁ ++ [b]) ++ l₂).find? p = (l₁ ++ l₂).find? p := by
  simp [List.find?_append, List.find?, hb]

/-- `find?` ignores an appended element that the predicate rejects. -/
theorem find?_concat_none {α : Type} (p : α → Bool) (l : List α) (b : α)
    (hb : p b = false) : (l ++ [b]).find? p = l.find? p := by
  simp [List.find?_append, List.find?, hb]

/-- Removing the first item with an id yields a sublist. -/
theorem removeFirstById_sublist (tid : String) (l : List QueueItem) :
    (removeFirstById tid l).1.Sublist l := by
  induction l with
  | nil => simp [removeFirstById]
  | cons it rest ih =>
    simp only [removeFirstById]
    split
    · exact List.sublist_cons_self it rest
    · exact List.Sublist.cons₂ it ih

/-- `_find_task` misses every id that is neither queued nor processing. -/
theorem findTask_eq_none_of_noActive (s : TaskQueue) (tid : String)
    (h : s.noActive tid) : s.findTask tid = none := by
  obtain ⟨hq, hp⟩ := h
  have hfind : s.queue.find? (fun it => it.task.taskId == tid) = none := by
    apply List.find?_eq_none.mpr
    intro it hit
    simpa using hq it hit
  unfold TaskQueue.findTask
  cases hproc : s.processing with
  | none => exact hfind
  | some item =>
    have hne : item.task.taskId ≠ tid := hp item (by rw [Option.mem_def, hproc])
    simp [hne, hfind]

/-- For an inactive id the recorded status comes from the terminal lists. -/
theorem statusOf_of_noActive (s : TaskQueue) (tid : String) (h : s.noActive tid) :
    s.statusOf tid =
      ((s.completedL ++ s.failedL).find? (fun it => it.task.taskId == tid)).map
        (fun it => it.task.status) := by
  unfold TaskQueue.statusOf
  rw [findTask_eq_none_of_noActive s tid h]

/-- Any queue operation other than an `add` of the very same id keeps an
inactive id inactive and does not change its recorded status. -/
theorem applyOp_preserves (cfg : QueueConfig) (s : TaskQueue) (tid : String)
    (op : QueueOp) (hna : s.noActive tid) (hop : op.addsId tid = false) :
    (TaskQueue.applyOp cfg s op).noActive tid ∧
      (TaskQueue.applyOp cfg s op).statusOf tid = s.statusOf tid := by
  obtain ⟨hq, hp⟩ := hna
  cases op with
  | add task priority =>
    have htid : task.taskId ≠ tid := by
      simpa [QueueOp.addsId] using hop
    simp only [TaskQueue.applyOp, TaskQueue.add]
    cases hfind : s.findTask task.taskId with
    | some it => exact ⟨⟨hq, hp⟩, rfl⟩
    | none =>
      have hna' : TaskQueue.noActive
          { s with queue := insertByPriority ⟨task, priority, 0⟩ s.queue } tid := by
        refine ⟨?_, hp⟩
        intro it hit
        rcases insertByPriority_mem.mp hit with h1 | h1
        · rw [h1]; exact htid
        · exact hq it h1
      refine ⟨hna', ?_⟩
      rw [statusOf_of_noActive _ _ hna', statusOf_of_noActive s tid ⟨hq, hp⟩]
  | getNext =>
    simp only [TaskQueue.applyOp, TaskQueue.getNext]
    cases hproc : s.processing with
    | some item => exact ⟨⟨hq, hp⟩, rfl⟩
    | none =>
      cases hqueue : s.queue with
      | nil => exact ⟨⟨hq, hp⟩, rfl⟩
      | cons item rest =>
        have hitem : item.task.taskId ≠ tid := hq item (by rw [hqueue]; simp)
        have hna' : TaskQueue.noActive
            { s with queue := rest, processing := some { item with task := { item.task with status := .processing } } } tid := by
          constructor
          · intro it hit
            exact hq it (by rw [hqueue]; exact List.mem_cons_of_mem _ hit)
          · intro it hit
            rw [Option.mem_def, Option.some_inj] at hit
            rw [← hit]
            exact hitem
        refine ⟨hna', ?_⟩
        rw [statusOf_of_noActive _ _ hna', statusOf_of_noActive s tid ⟨hq, hp⟩]
  | complete tid' success =>
    cases hproc : s.processing with
    | none =>
      simp only [TaskQueue.applyOp, TaskQueue.complete, hproc]
      exact ⟨⟨hq, hp⟩, by simp⟩
    | some item =>
      have hitem : item.task.taskId ≠ tid := hp item (by rw [Option.mem_def, hproc])
      simp only [TaskQueue.applyOp, TaskQueue.complete, hproc]
      by_cases hmatch : (item.task.taskId == tid') = true
      · rw [if_pos hmatch]
        cases success with
        | true =>
          rw [if_pos rfl]
          have hna' : TaskQueue.noActive
              { s with processing := none, completedL := s.completedL ++ [{ item with task := { item.task with status := .completed } }] } tid := by
            exact ⟨hq, by simp⟩
          refine ⟨hna', ?_⟩
          rw [statusOf_of_noActive _ _ hna', statusOf_of_noActive s tid ⟨hq, hp⟩]
          have hb : (fun it => it.task.taskId == tid)
              ({ item with task := { item.task with status := .completed } } : QueueItem) = false := by
            simpa using hitem
          exact congrArg (Option.map fun it => it.task.status)
            (find?_middle_none (fun it => it.task.taskId == tid) s.completedL
              s.failedL
              { item with task := { item.task with status := .completed } } hb)
        | false =>
          rw [if_neg (by simp)]
          by_cases hret : item.retries < cfg.maxRetries
          · rw [if_pos hret]
            have hna' : TaskQueue.noActive
                { s with processing := none, queue := { item with retries := item.retries + 1, task := { item.task with status := .pending } } :: s.queue } tid := by
              constructor
              · intro it hit
                rcases List.mem_cons.mp hit with h1 | h1
                · rw [h1]; exact hitem
                · exact hq it h1
              · simp
            refine ⟨hna', ?_⟩
            rw [statusOf_of_noActive _ _ hna', statusOf_of_noActive s tid ⟨hq, hp⟩]
          · rw [if_neg hret]
            have hna' : TaskQueue.noActive
                { s with processing := none, failedL := s.failedL ++ [{ item with task := { item.task with status := .failed } }] } tid := by
              exact ⟨hq, by simp⟩
            refine ⟨hna', ?_⟩
            rw [statusOf_of_noActive _ _ hna', statusOf_of_noActive s tid ⟨hq, hp⟩]
            have hb : (fun it => it.task.taskId == tid)
                ({ item with task := { item.task with status := .failed } } : QueueItem) = false := by
              simpa using hitem
            have hfind : List.find? (fun it => it.task.taskId == tid)
                (s.completedL ++ (s.failedL ++
                  [{ item with task := { item.task with status := .failed } }])) =
                List.find? (fun it => it.task.taskId == tid)
                  (s.completedL ++ s.failedL) := by
              rw [← List.append_assoc]
              exact find?_concat_none _ _ _ hb
            exact congrArg (Option.map fun it => it.task.status) hfind
      · rw [if_neg hmatch]
        exact ⟨⟨hq, hp⟩, rfl⟩
  | cancel tid' =>
    cases hproc : s.processing with
    | some item =>
      have hitem : item.task.taskId ≠ tid := hp item (by rw [Option.mem_def, hproc])
      simp only [TaskQueue.applyOp, TaskQueue.cancel, hproc]
      by_cases hmatch : (item.task.taskId == tid') = true
      · rw [if_pos hmatch]
        have hna' : TaskQueue.noActive { s with processing := none } tid :=
          ⟨hq, by simp⟩
        refine ⟨hna', ?_⟩
        rw [statusOf_of_noActive _ _ hna', statusOf_of_noActive s tid ⟨hq, hp⟩]
      · rw [if_neg hmatch]
        have hna' : TaskQueue.noActive
            { queue := (removeFirstById tid' s.queue).1, processing := some item,
              completedL := s.completedL, failedL := s.failedL } tid := by
          constructor
          · intro it hit
            exact hq it ((removeFirstById_sublist tid' s.queue).subset hit)
          · intro it hit
            rw [Option.mem_def] at hit
            have heq : item = it := by simpa using hit
            rw [← heq]
            exact hitem
        refine ⟨hna', ?_⟩
        rw [statusOf_of_noActive _ _ hna', statusOf_of_noActive s tid ⟨hq, hp⟩]
    | none =>
      simp only [TaskQueue.applyOp, TaskQueue.cancel, hproc]
      have hna' : TaskQueue.noActive
          { queue := (removeFirstById tid' s.queue).1, processing := none,
            completedL := s.completedL, failedL := s.failedL } tid := by
        constructor
        · intro it hit
          exact hq it ((removeFirstById_sublist tid' s.queue).subset hit)
        · intro it hit
          rw [Option.mem_def] at hit
          simp at hit
      refine ⟨hna', ?_⟩
      rw [statusOf_of_noActive _ _ hna', statusOf_of_noActive s tid ⟨hq, hp⟩]

/-- C4 (amended).  Queue monotonicity holds provided `add` is never invoked
with the task id of a task that has already reached a terminal state: from
any state in which the id is out of the pending queue and the processing
slot (where the terminal lists keep it once `complete` files it), any
sequence of further operations none of which is an `add` of that id leaves
the recorded status — in particular a terminal one — unchanged, so the task
never returns to pending or processing.  (Re-adding the id breaks this; see
the counterexample theorem.) -/
theorem queue_monotonic_without_terminal_readd
    (cfg : QueueConfig) (s : TaskQueue) (tid : String) (st : TaskStatus)
    (ops : List QueueOp)
    (hna : s.noActive tid) (hst : s.statusOf tid = some st)
    (_hterm : st.isTerminal = true)
    (hops : ∀ op ∈ ops, QueueOp.addsId tid op = false) :
    (ops.foldl (TaskQueue.applyOp cfg) s).statusOf tid = some st := by
  induction ops generalizing s with
  | nil => exact hst
  | cons op rest ih =>
    simp only [List.foldl_cons]
    have h1 := applyOp_preserves cfg s tid op hna (hops op (List.mem_cons_self op rest))
    exact ih (TaskQueue.applyOp cfg s op) h1.1 (h1.2.trans hst)
      (fun o ho => hops o (List.mem_cons_of_mem op ho))

/-- C4 witness: a queue whose `_completed` list holds `t1` keeps reporting
`completed` for `t1` across a `get_next`, a `cancel` and a failing
`complete` of another task. -/
theorem queue_monotonic_without_terminal_readd_witness :
    (([QueueOp.getNext, .cancel "t1", .complete "t2" false]).foldl
        (TaskQueue.applyOp {})
        { queue := [], processing := none,
          completedL := [⟨⟨"t1", .completed⟩, 0, 0⟩], failedL := [] }).statusOf
      "t1" = some .completed :=
  queue_monotonic_without_terminal_readd {}
    { queue := [], processing := none,
      completedL := [⟨⟨"t1", .completed⟩, 0, 0⟩], failedL := [] }
    "t1" .completed [QueueOp.getNext, .cancel "t1", .complete "t2" false]
    ⟨by simp, by simp⟩ (by decide) (by decide) (by decide)

/-- Mapped membership in the priority insertion. -/
theorem insertByPriority_map_mem {α : Type} {f : QueueItem → α} {it : QueueItem}
    {x : α} {l : List QueueItem} :
    x ∈ (insertByPriority it l).map f ↔ x = f it ∨ x ∈ l.map f := by
  simp only [List.mem_map]
  constructor
  · rintro ⟨y, hy, rfl⟩
    rcases insertByPriority_mem.mp hy with rfl | hy'
    · exact Or.inl rfl
    · exact Or.inr ⟨y, hy', rfl⟩
  · rintro (rfl | ⟨y, hy, rfl⟩)
    · exact ⟨it, insertByPriority_mem.mpr (Or.inl rfl), rfl⟩
    · exact ⟨y, insertByPriority_mem.mpr (Or.inr hy), rfl⟩

/-- Inserting an item with a fresh id preserves distinctness of the queued
ids. -/
theorem insertByPriority_map_taskId_nodup (it : QueueItem) (l : List QueueItem)
    (hnot : it.task.taskId ∉ l.map (fun x => x.task.taskId))
    (hnd : (l.map (fun x => x.task.taskId)).Nodup) :
    ((insertByPriority it l).map (fun x => x.task.taskId)).Nodup := by
  induction l with
  | nil => simp [insertByPriority]
  | cons q rest ih =>
    simp only [insertByPriority]
    split
    · simp only [List.map_cons, List.nodup_cons, List.mem_cons] at hnd ⊢
      simp only [List.map_cons, List.mem_cons] at hnot
      push_neg at hnot
      exact ⟨fun h => h.elim hnot.1 hnot.2, hnd⟩
    · simp only [List.map_cons, List.nodup_cons] at hnd
      simp only [List.map_cons, List.mem_cons] at hnot
      push_neg at hnot
      simp only [List.map_cons, List.nodup_cons]
      refine ⟨?_, ih hnot.2 hnd.2⟩
      intro hmem
      rcases insertByPriority_map_mem.mp hmem with h1 | h1
      · exact hnot.1 h1.symm
      · exact hnd.1 h1

/-- An id that `_find_task` misses is not among the active ids. -/
theorem not_mem_activeIds_of_findTask_none (s : TaskQueue) (tid : String)
    (h : s.findTask tid = none) : tid ∉ s.activeIds := by
  unfold TaskQueue.activeIds
  cases hproc : s.processing with
  | none =>
    simp only [TaskQueue.findTask, hproc] at h
    simp only [Option.elim, List.nil_append]
    intro hmem
    rcases List.mem_map.mp hmem with ⟨it, hit, hid⟩
    have hnone := List.find?_eq_none.mp h it hit
    simp [hid] at hnone
  | some item =>
    simp only [TaskQueue.findTask, hproc] at h
    by_cases hbeq : (item.task.taskId == tid) = true
    · rw [if_pos hbeq] at h
      exact absurd h (by simp)
    · rw [if_neg hbeq] at h
      simp only [Option.elim, List.cons_append, List.nil_append]
      intro hmem
      rcases List.mem_cons.mp hmem with h1 | h1
      · exact hbeq (by rw [h1]; simp)
      · rcases List.mem_map.mp h1 with ⟨it, hit, hid⟩
        have hnone := List.find?_eq_none.mp h it hit
        simp [hid] at hnone

/-- Every queue operation preserves distinctness of the active ids. -/
theorem applyOp_activeIds_nodup (cfg : QueueConfig) (s : TaskQueue) (op : QueueOp)
    (h : s.activeIds.Nodup) : (TaskQueue.applyOp cfg s op).activeIds.Nodup := by
  cases op with
  | add task priority =>
    cases hfind : s.findTask task.taskId with
    | some it =>
      simp only [TaskQueue.applyOp, TaskQueue.add, hfind]
      exact h
    | none =>
      have hnot := not_mem_activeIds_of_findTask_none s task.taskId hfind
      simp only [TaskQueue.applyOp, TaskQueue.add, hfind]
      unfold TaskQueue.activeIds at h ⊢
      cases hproc : s.processing with
      | none =>
        rw [hproc] at h
        simp only [Option.elim, List.nil_append] at h ⊢
        unfold TaskQueue.activeIds at hnot
        rw [hproc] at hnot
        simp only [Option.elim, List.nil_append] at hnot
        exact insertByPriority_map_taskId_nodup ⟨task, priority, 0⟩ s.queue hnot h
      | some item =>
        rw [hproc] at h
        unfold TaskQueue.activeIds at hnot
        rw [hproc] at hnot
        simp only [Option.elim, List.cons_append, List.nil_append,
          List.nodup_cons, List.mem_cons] at h hnot ⊢
        push_neg at hnot
        constructor
        · intro hmem
          rcases insertByPriority_map_mem.mp hmem with h1 | h1
          · exact hnot.1 h1.symm
          · exact h.1 h1
        · exact insertByPriority_map_taskId_nodup ⟨task, priority, 0⟩ s.queue
            hnot.2 h.2
  | getNext =>
    cases hproc : s.processing with
    | some item =>
      simp only [TaskQueue.applyOp, TaskQueue.getNext, hproc]
      exact h
    | none =>
      cases hqueue : s.queue with
      | nil =>
        simp only [TaskQueue.applyOp, TaskQueue.getNext, hproc, hqueue]
        exact h
      | cons item rest =>
        simp only [TaskQueue.applyOp, TaskQueue.getNext, hproc, hqueue]
        unfold TaskQueue.activeIds at h ⊢
        rw [hproc, hqueue] at h
        simp only [Option.elim, List.nil_append, List.cons_append, List.map_cons] at h ⊢
        exact h
  | complete tid success =>
    cases hproc : s.processing with
    | none =>
      simp only [TaskQueue.applyOp, TaskQueue.complete, hproc]
      exact h
    | some item =>
      simp only [TaskQueue.applyOp, TaskQueue.complete, hproc]
      unfold TaskQueue.activeIds at h
      rw [hproc] at h
      simp only [Option.elim, List.cons_append, List.nil_append,
        List.nodup_cons] at h
      by_cases hmatch : (item.task.taskId == tid) = true
      · rw [if_pos hmatch]
        cases success with
        | true =>
          rw [if_pos rfl]
          unfold TaskQueue.activeIds
          simp only [Option.elim, List.nil_append]
          exact h.2
        | false =>
          rw [if_neg (by simp)]
          by_cases hret : item.retries < cfg.maxRetries
          · rw [if_pos hret]
            unfold TaskQueue.activeIds
            simp only [Option.elim, List.nil_append, List.map_cons,
              List.nodup_cons]
            exact h
          · rw [if_neg hret]
            unfold TaskQueue.activeIds
            simp only [Option.elim, List.nil_append]
            exact h.2
      · rw [if_neg hmatch]
        unfold TaskQueue.activeIds
        rw [hproc]
        simp only [Option.elim, List.cons_append, List.nil_append,
          List.nodup_cons]
        exact h
  | cancel tid =>
    cases hproc : s.processing with
    | some item =>
      simp only [TaskQueue.applyOp, TaskQueue.cancel, hproc]
      unfold TaskQueue.activeIds at h
      rw [hproc] at h
      simp only [Option.elim, List.cons_append, List.nil_append,
        List.nodup_cons] at h
      by_cases hmatch : (item.task.taskId == tid) = true
      · rw [if_pos hmatch]
        unfold TaskQueue.activeIds
        simp only [Option.elim, List.nil_append]
        exact h.2
      · rw [if_neg hmatch]
        unfold TaskQueue.activeIds
        simp only [Option.elim, List.cons_append, List.nil_append,
          List.nodup_cons]
        have hsub : ((removeFirstById tid s.queue).1.map
            (fun it => it.task.taskId)).Sublist
              (s.queue.map (fun it => it.task.taskId)) :=
          (removeFirstById_sublist tid s.queue).map _
        constructor
        · intro hmem
          exact h.1 (hsub.subset hmem)
        · exact h.2.sublist hsub
    | none =>
      simp only [TaskQueue.applyOp, TaskQueue.cancel, hproc]
      unfold TaskQueue.activeIds at h ⊢
      rw [hproc] at h
      simp only [Option.elim, List.nil_append] at h ⊢
      have hsub : ((removeFirstById tid s.queue).1.map
          (fun it => it.task.taskId)).Sublist
            (s.queue.map (fun it => it.task.taskId)) :=
        (removeFirstById_sublist tid s.queue).map _
      exact h.sublist hsub

/-- In every reachable queue state the active ids are pairwise distinct. -/
theorem activeIds_nodup_runOps (cfg : QueueConfig) (ops : List QueueOp) :
    (TaskQueue.runOps cfg ops).activeIds.Nodup := by
  unfold TaskQueue.runOps
  have key : ∀ (l : List QueueOp) (s : TaskQueue), s.activeIds.Nodup →
      (l.foldl (TaskQueue.applyOp cfg) s).activeIds.Nodup := by
    intro l
    induction l with
    | nil => exact fun s h => h
    | cons op rest ih =>
      intro s h
      exact ih _ (applyOp_activeIds_nodup cfg s op h)
  exact key ops TaskQueue.empty (by simp [TaskQueue.empty, TaskQueue.activeIds])

/-- C10.  `TaskQueue.add` is idempotent per task id, and active ids are
unique: in every reachable queue state, no two items among the pending
queue and the processing slot share a task id, and calling `add` with a
`TaskInfo` whose id `_find_task` already sees leaves the state unchanged
and returns that id. -/
theorem queue_add_idempotent_and_ids_unique (cfg : QueueConfig) (ops : List QueueOp) :
    (TaskQueue.runOps cfg ops).activeIds.Nodup ∧
      ∀ (task : TaskRec) (priority : ℕ),
        TaskQueue.findTask (TaskQueue.runOps cfg ops) task.taskId ≠ none →
        TaskQueue.add (TaskQueue.runOps cfg ops) task priority =
          (TaskQueue.runOps cfg ops, task.taskId) := by
  refine ⟨activeIds_nodup_runOps cfg ops, ?_⟩
  intro task priority hfind
  cases hf : (TaskQueue.runOps cfg ops).findTask task.taskId with
  | none => exact absurd hf hfind
  | some it => simp only [TaskQueue.add, hf]

/-- C10 witness: adding `t1` twice leaves the single-element queue unchanged
and returns the id; the active ids of the reached state are distinct. -/
theorem queue_add_idempotent_and_ids_unique_witness :
    (TaskQueue.runOps {} [.add ⟨"t1", .pending⟩ 0]).activeIds.Nodup ∧
    TaskQueue.add (TaskQueue.runOps {} [.add ⟨"t1", .pending⟩ 0])
        ⟨"t1", .pending⟩ 5 =
      (TaskQueue.runOps {} [.add ⟨"t1", .pending⟩ 0], "t1") :=
  ⟨(queue_add_idempotent_and_ids_unique {} [.add ⟨"t1", .pending⟩ 0]).1,
   (queue_add_idempotent_and_ids_unique {} [.add ⟨"t1", .pending⟩ 0]).2
     ⟨"t1", .pending⟩ 5 (by decide)⟩
